import Mathlib

/-!
Shallow embedding of the MovieSaver repository
(src/MovieSaver/src/main.rs and src/MovieSaver/src/utils.rs).

Modelling conventions:
* `f64` prices are modelled as `ℚ`.  All claims checked here concern which
  value is stored or whether parsing succeeds, never float rounding.
* serde_json is external library code; persistence is modelled at the level
  of JSON documents (`Json`): `serde_json::to_string_pretty` produces the
  document, `serde_json::from_str` consumes it.  A file whose text is not
  valid JSON at all is modelled by `FileState.unreadable` together with any
  `Json` document that fails schema decoding.
* The file system is a map from path to file state; `fs::write` is modelled
  as always succeeding (no claim concerns write failures).
* `get_current_timestamp` reads the wall clock (chrono); it is modelled as
  an explicit `now : String` parameter threaded to the operations.
* Console I/O: stdin is a list of pending lines (`read_line` at EOF yields
  the empty string, hence `headD ""`); everything printed is collected in a
  `List String` of output events.
-/

namespace MovieSaver

/-- Embeds `MovieInfo` from utils.rs: timestamp, title, year (`i32`), price (`f64`,
modelled as `ℚ`). -/
structure MovieInfo where
  timestamp : String
  title : String
  year : Int
  price : ℚ
deriving DecidableEq

instance : Inhabited MovieInfo := ⟨⟨"", "", 0, 0⟩⟩

def i32Min : Int := -(2 ^ 31)

def i32Max : Int := 2 ^ 31 - 1

/-- A record is representable by the Rust struct when its year fits in `i32`
(`year : i32` in the source). -/
def MovieInfo.wf (m : MovieInfo) : Prop := i32Min ≤ m.year ∧ m.year ≤ i32Max

instance (m : MovieInfo) : Decidable m.wf := by unfold MovieInfo.wf; infer_instance

/-- JSON documents, as produced and consumed by serde_json.  Integral and
non-integral numbers are kept apart the way serde_json keeps `i64`/`f64`
apart. -/
inductive Json where
  | str (s : String)
  | int (n : Int)
  | num (q : ℚ)
  | arr (elems : List Json)
  | obj (fields : List (String × Json))

/-- Field access on a JSON object (the derived serde deserializer matches
fields by name). -/
def Json.getField (j : Json) (name : String) : Option Json :=
  match j with
  | .obj fields => fields.lookup name
  | _ => none

/-- Serialization of one record, per `#[derive(Serialize)]` on `MovieInfo`:
an object with the four fields in declaration order. -/
def MovieInfo.toJson (m : MovieInfo) : Json :=
  .obj [("timestamp", .str m.timestamp), ("title", .str m.title),
        ("year", .int m.year), ("price", .num m.price)]

def asString : Option Json → Option String
  | some (.str s) => some s
  | _ => none

/-- serde rejects an `i32` field whose value does not fit in `i32`. -/
def asI32 : Option Json → Option Int
  | some (.int n) => if i32Min ≤ n ∧ n ≤ i32Max then some n else none
  | _ => none

/-- serde accepts both integral and non-integral JSON numbers for `f64`. -/
def asF64 : Option Json → Option ℚ
  | some (.num q) => some q
  | some (.int n) => some (n : ℚ)
  | _ => none

/-- Deserialization of one record, per `#[derive(Deserialize)]`: all four
fields must be present with the right types. -/
def MovieInfo.fromJson (j : Json) : Option MovieInfo :=
  match asString (j.getField "timestamp"), asString (j.getField "title"),
        asI32 (j.getField "year"), asF64 (j.getField "price") with
  | some ts, some t, some y, some p => some ⟨ts, t, y, p⟩
  | _, _, _, _ => none

/-- Models `serde_json::to_string_pretty(movies)`: a JSON array of record objects. -/
def moviesToJson (movies : List MovieInfo) : Json :=
  .arr (movies.map MovieInfo.toJson)

/-- Models `serde_json::from_str::<Vec<MovieInfo>>`. -/
def moviesFromJson (j : Json) : Option (List MovieInfo) :=
  match j with
  | .arr elems => elems.mapM MovieInfo.fromJson
  | _ => none

/-- State of one path: existing but unreadable (`fs::read_to_string` fails),
or readable with a JSON document as content. -/
inductive FileState where
  | unreadable
  | content (doc : Json)

/-- The file system maps a path to `none` (no such file) or its state. -/
abbrev FileSystem := String → Option FileState

/-- Embeds `save_movies` from utils.rs: serializes the whole list and overwrites the
file.  (`ensure_movie_directory_exists` and write failures are I/O details
outside the model; serialization of this struct cannot fail.)  Returns the
new file system and the lines printed. -/
def save_movies (movies : List MovieInfo) (filename : String) (fs : FileSystem) :
    FileSystem × List String :=
  (fun n => if n = filename then some (.content (moviesToJson movies)) else fs n,
   ["Movies saved successfully to " ++ filename])

/-- Embeds `load_movies` from utils.rs.  Missing file: empty list, no message.
Unreadable file: empty list plus a warning.  Undecodable content: empty list
plus a warning.  (The OS error text appended to the real warnings is
abstracted away.) -/
def load_movies (filename : String) (fs : FileSystem) :
    List MovieInfo × List String :=
  match fs filename with
  | none => ([], [])
  | some .unreadable => ([], ["Warning: Could not read file " ++ filename])
  | some (.content doc) =>
    match moviesFromJson doc with
    | some movies => (movies, [])
    | none => ([], ["Warning: Failed to parse JSON data from " ++ filename])

/-- Models `str::trim` (Rust trims Unicode whitespace; the common ASCII whitespace
suffices for every input the program distinguishes). -/
def rustTrim (s : String) : String :=
  ⟨((s.data.dropWhile Char.isWhitespace).reverse.dropWhile Char.isWhitespace).reverse⟩

def digitsToNat (ds : List Char) : Nat :=
  ds.foldl (fun n c => n * 10 + (c.toNat - 48)) 0

/-- Models `str::parse::<usize>`: an optional `+` sign followed by one or more ASCII
digits.  (Values above `usize::MAX` make the real parse fail; every such value
also exceeds any catalog length, so both are rejected identically where this
parser is used.) -/
def parseUsize (s : String) : Option Nat :=
  let ds := match s.data with
    | '+' :: rest => rest
    | cs => cs
  if ds ≠ [] ∧ ds.all Char.isDigit then some (digitsToNat ds) else none

/-- Models `str::parse::<i32>`: optional sign, digits, result within `i32` range. -/
def parseI32 (s : String) : Option Int :=
  let (neg, ds) := match s.data with
    | '+' :: rest => (false, rest)
    | '-' :: rest => (true, rest)
    | cs => (false, cs)
  if ds ≠ [] ∧ ds.all Char.isDigit then
    let v : Int := if neg then -(digitsToNat ds : Int) else (digitsToNat ds : Int)
    if i32Min ≤ v ∧ v ≤ i32Max then some v else none
  else none

/-- Decimal mantissa of a float literal: `digits`, `digits.digits`,
`digits.` or `.digits`. -/
def parseMantissa (cs : List Char) : Option ℚ :=
  let intPart := cs.takeWhile (fun c => c ≠ '.')
  match cs.dropWhile (fun c => c ≠ '.') with
  | [] =>
    if intPart ≠ [] ∧ intPart.all Char.isDigit then some (digitsToNat intPart : ℚ)
    else none
  | _ :: fracPart =>
    if (intPart ≠ [] ∨ fracPart ≠ []) ∧ intPart.all Char.isDigit ∧
        fracPart.all Char.isDigit then
      some ((digitsToNat intPart : ℚ) +
        (digitsToNat fracPart : ℚ) / ((10 : ℚ) ^ fracPart.length))
    else none

/-- Models `str::parse::<f64>` on ordinary decimal input: optional sign, mantissa,
optional `e`/`E` exponent.  The exact value is kept in `ℚ`; float rounding,
and the `inf`/`nan` spellings, are outside the claims checked here. -/
def parseF64 (s : String) : Option ℚ :=
  let (neg, cs) := match s.data with
    | '+' :: rest => (false, rest)
    | '-' :: rest => (true, rest)
    | cs => (false, cs)
  let mant := cs.takeWhile (fun c => c ≠ 'e' ∧ c ≠ 'E')
  let expo : Option Int :=
    match cs.dropWhile (fun c => c ≠ 'e' ∧ c ≠ 'E') with
    | [] => some 0
    | _ :: ecs =>
      let (eneg, eds) := match ecs with
        | '+' :: rest => (false, rest)
        | '-' :: rest => (true, rest)
        | cs => (false, cs)
      if eds ≠ [] ∧ eds.all Char.isDigit then
        some (if eneg then -(digitsToNat eds : Int) else (digitsToNat eds : Int))
      else none
  match parseMantissa mant, expo with
  | some m, some e => some ((if neg then -m else m) * (10 : ℚ) ^ e)
  | _, _ => none

/-- Embeds `input_movie` from utils.rs: reads title, year and price lines, trims
them, coerces unparsable numbers to `0` / `0.0` (`unwrap_or`), and stamps the
record with the current time (`now`).  Returns the record, the remaining
stdin and the printed prompts. -/
def input_movie (now : String) (stdin : List String) :
    MovieInfo × List String × List String :=
  let title := rustTrim (stdin.headD "")
  let year := (parseI32 (rustTrim (stdin.tail.headD ""))).getD 0
  let price := (parseF64 (rustTrim (stdin.tail.tail.headD ""))).getD 0
  (⟨now, title, year, price⟩, stdin.tail.tail.tail,
   ["Enter movie title: ", "Enter release year: ", "Enter current price: $"])

/-- The number of cents in `q`: `q * 100` rounded to the nearest integer,
ties to even — the rounding that Rust float formatting applies to the exact
decimal value.  Computed on `q.num` and `q.den` directly: with
`n = q.num * 100`, `f = ⌊n / den⌋` and remainder `r = n - f * den`, the
fraction part is below / above / exactly one half according as `2r` compares
with `den`. -/
def roundCents (q : ℚ) : Int :=
  let n := q.num * 100
  let d : Int := (q.den : Int)
  let f := n.fdiv d
  let r2 := 2 * (n - f * d)
  if r2 < d then f
  else if d < r2 then f + 1
  else if f % 2 = 0 then f else f + 1

/-- Models the `{:.2}` formatting of the price: the value rounded to two decimals. -/
def formatPrice (q : ℚ) : String :=
  let cents : Int := roundCents q
  let sign := if cents < 0 then "-" else ""
  let a := cents.natAbs
  sign ++ toString (a / 100) ++ "." ++
    (if a % 100 < 10 then "0" else "") ++ toString (a % 100)

/-- Embeds `display_movie` from utils.rs: the four lines printed for one record. -/
def display_movie (m : MovieInfo) : List String :=
  ["Title: " ++ m.title, "Year: " ++ toString m.year,
   "Price: $" ++ formatPrice m.price, "Last Updated: " ++ m.timestamp]

/-- The lines printed for one record inside the listing loop: the four
`display_movie` lines and the separator. -/
def recordBlock (m : MovieInfo) : List String :=
  display_movie m ++ ["---------------------"]

/-- Embeds `display_all_movies` from utils.rs: a no-records notice when empty,
otherwise a header followed by the lines of each record and a separator. -/
def display_all_movies (movies : List MovieInfo) : List String :=
  if movies.isEmpty then ["No movies in database."]
  else "\n=== Movie Database ===" :: (movies.map recordBlock).flatten

/-- Embeds `delete_movie` from utils.rs.  Empty catalog: a dedicated notice, no
input consumed.  Otherwise: enumerated listing, a prompt, one line read;
a parsed index in `[1, length]` removes that record, anything else prints
an invalid-selection notice and changes nothing.  Returns the new catalog,
the remaining stdin and the printed lines. -/
def delete_movie (movies : List MovieInfo) (stdin : List String) :
    List MovieInfo × List String × List String :=
  if movies.isEmpty then (movies, stdin, ["No movies to delete."])
  else
    let listing := "\n=== Delete a Movie ===" ::
      movies.enum.map (fun p =>
        toString (p.1 + 1) ++ ". " ++ p.2.title ++ " (" ++ toString p.2.year ++ ")") ++
      ["Enter the number of the movie to delete: "]
    let rest := stdin.tail
    match parseUsize (rustTrim (stdin.headD "")) with
    | some num =>
      if 0 < num ∧ num ≤ movies.length then
        let removed := movies.getD (num - 1) default
        (movies.eraseIdx (num - 1), rest,
         listing ++ ["Deleted \"" ++ removed.title ++ "\" (" ++ toString removed.year ++ ")"])
      else (movies, rest, listing ++ ["Invalid selection."])
    | none => (movies, rest, listing ++ ["Invalid selection."])

/-- The two session states of the menu loop in `run_movie_db`. -/
inductive SessionStatus where
  | running
  | terminated
deriving DecidableEq

/-- State carried across menu-loop iterations: the in-memory catalog, the
pending stdin lines, the file system, and the session status. -/
structure DBState where
  movies : List MovieInfo
  stdin : List String
  fs : FileSystem
  status : SessionStatus

def dbFilename : String := "MovieData/movies.json"

/-- The menu printed at the top of every loop iteration. -/
def menuLines : List String :=
  ["\nMovie Database Menu:", "1. Add new movie", "2. View all movies",
   "3. Delete a movie", "4. Save & Exit", "Choice: "]

/-- One iteration of the menu loop in `run_movie_db`: print the menu, read
and trim a choice line, dispatch.  Choice 4 saves and moves the session to
`terminated` (the `break`); an unrecognized choice prints a notice and
changes nothing else. -/
def run_step (now : String) (s : DBState) : DBState × List String :=
  match s.status with
  | .terminated => (s, [])
  | .running =>
    let choice := rustTrim (s.stdin.headD "")
    let rest := s.stdin.tail
    if choice = "1" then
      let r := input_movie now rest
      ({ s with movies := s.movies ++ [r.1], stdin := r.2.1 }, menuLines ++ r.2.2)
    else if choice = "2" then
      ({ s with stdin := rest }, menuLines ++ display_all_movies s.movies)
    else if choice = "3" then
      let r := delete_movie s.movies rest
      ({ s with movies := r.1, stdin := r.2.1 }, menuLines ++ r.2.2)
    else if choice = "4" then
      let r := save_movies s.movies dbFilename s.fs
      ({ s with stdin := rest, fs := r.1, status := .terminated },
       menuLines ++ r.2 ++ ["Data saved. Goodbye!"])
    else ({ s with stdin := rest }, menuLines ++ ["Invalid choice. Please try again."])

/-- The menu loop run to completion, fuel-bounded: `none` when the fuel runs
out before the session terminates, otherwise the `Result` value of
`run_movie_db` (`Ok(0)` at the `break`), the final state and the output. -/
def run_loop (now : String) : Nat → DBState → Option (Except String Int × DBState × List String)
  | 0, _ => none
  | fuel + 1, s =>
    match s.status with
    | .terminated => some (Except.ok 0, s, [])
    | .running =>
      let p := run_step now s
      match run_loop now fuel p.1 with
      | some (r, sf, out) => some (r, sf, p.2 ++ out)
      | none => none

/-- Embeds `run_movie_db` from utils.rs: load the catalog from the fixed file, then
run the menu loop. -/
def run_movie_db (now : String) (fuel : Nat) (stdin : List String) (fs : FileSystem) :
    Option (Except String Int × DBState × List String) :=
  let loaded := load_movies dbFilename fs
  match run_loop now fuel ⟨loaded.1, stdin, fs, .running⟩ with
  | some (r, sf, out) => some (r, sf, loaded.2 ++ out)
  | none => none

/-- The possible outcomes `main` observes from `catch_unwind(run_movie_db)`:
a returned `Ok(code)`, a returned `Err(msg)`, or a caught panic. -/
inductive RunOutcome where
  | ok (code : Int)
  | err (msg : String)
  | panicked
deriving DecidableEq

/-- The match at the end of `main` in main.rs: the process exit code and the
lines written to stderr for each outcome. -/
def main_exit : RunOutcome → Int × List String
  | .ok 0 => (0, [])
  | .ok code => (code, ["Program ended with error code: " ++ toString code])
  | .err e => (1, ["Error: " ++ e])
  | .panicked => (1, ["Error: An unexpected error occurred."])

/-- Sample records used to exercise the operations on concrete inputs. -/
def sampleA : MovieInfo := ⟨"2024-01-01 00:00:00", "Inception", 2010, mkRat 999 100⟩

def sampleB : MovieInfo := ⟨"2024-01-02 00:00:00", "Dune", 2021, mkRat 25 2⟩

/-- Default triple used to project a run result out of an `Option`. -/
def dummyRes : Except String Int × DBState × List String :=
  (Except.ok 1, ⟨[], [], fun _ => none, .running⟩, [])

/-- A concrete state poised to add a record with unparsable year and price. -/
def addState : DBState :=
  ⟨[sampleA], ["1", "The Matrix", "xyz", "abc"], fun _ => none, .running⟩

/-- A concrete running state whose pending input is the unrecognized menu
choice "9". -/
def badChoiceState : DBState := ⟨[sampleA], ["9"], fun _ => none, .running⟩

theorem fromJson_toJson (m : MovieInfo) (h : m.wf) :
    MovieInfo.fromJson m.toJson = some m := by
  obtain ⟨h1, h2⟩ := h
  simp [MovieInfo.fromJson, MovieInfo.toJson, Json.getField, List.lookup,
    asString, asI32, asF64, h1, h2]

theorem mapM_fromJson_map_toJson (l : List MovieInfo) :
    (∀ m ∈ l, m.wf) → (l.map MovieInfo.toJson).mapM MovieInfo.fromJson = some l := by
  induction l with
  | nil => intro _; rfl
  | cons m t ih =>
    intro h
    have hm := fromJson_toJson m (h m (by simp))
    have ht := ih (fun x hx => h x (by simp [hx]))
    rw [List.map_cons, List.mapM_cons, hm, ht]
    rfl

theorem moviesFromJson_toJson (movies : List MovieInfo) (h : ∀ m ∈ movies, m.wf) :
    moviesFromJson (moviesToJson movies) = some movies := by
  unfold moviesToJson moviesFromJson
  exact mapM_fromJson_map_toJson movies h

/-- C1: saving a sequence of representable records and loading the same file
back yields exactly the same records in the same order, with no warning, for
the persistence encoding the program supports (the structured JSON one). -/
theorem save_load_roundtrip (movies : List MovieInfo) (filename : String)
    (fs : FileSystem) (h : ∀ m ∈ movies, m.wf) :
    load_movies filename (save_movies movies filename fs).1 = (movies, []) := by
  unfold load_movies save_movies
  simp [moviesFromJson_toJson movies h]

/-- C1 witness: a concrete two-record catalog survives the round trip. -/
theorem save_load_roundtrip_witness :
    load_movies "MovieData/movies.json"
      (save_movies [sampleA, sampleB] "MovieData/movies.json" (fun _ => none)).1 =
      ([sampleA, sampleB], []) :=
  save_load_roundtrip [sampleA, sampleB] "MovieData/movies.json" (fun _ => none)
    (by decide)

/-- C2: with a selection line parsing to an index `i` in `[1, length]`,
`delete_movie` removes exactly the record at 1-based position `i`, keeping
every other record in its original relative order, and shrinks the catalog
by one. -/
theorem delete_valid_index (movies : List MovieInfo) (stdin : List String) (i : Nat)
    (hparse : parseUsize (rustTrim (stdin.headD "")) = some i)
    (h1 : 1 ≤ i) (h2 : i ≤ movies.length) :
    (delete_movie movies stdin).1 = movies.take (i - 1) ++ movies.drop i ∧
    (delete_movie movies stdin).1.length = movies.length - 1 := by
  have hne : movies.isEmpty = false := by
    cases movies
    · simp at h2; omega
    · rfl
  have hi : i - 1 + 1 = i := by omega
  unfold delete_movie
  rw [hne]
  simp only [Bool.false_eq_true, if_false, hparse]
  rw [if_pos ⟨by omega, h2⟩]
  constructor
  · rw [List.eraseIdx_eq_take_drop_succ, hi]
  · rw [List.eraseIdx_eq_take_drop_succ, hi]
    simp only [List.length_append, List.length_take, List.length_drop]
    omega

/-- C2 witness: deleting index 1 from a two-record catalog leaves the second
record. -/
theorem delete_valid_index_witness :
    (delete_movie [sampleA, sampleB] ["1"]).1 =
      [sampleA, sampleB].take (1 - 1) ++ [sampleA, sampleB].drop 1 ∧
    (delete_movie [sampleA, sampleB] ["1"]).1.length = [sampleA, sampleB].length - 1 :=
  delete_valid_index [sampleA, sampleB] ["1"] 1 (by decide) (by decide) (by decide)

/-- C3 counterexample: the claim quantifies over every catalog, but on the
empty catalog the code prints the dedicated "No movies to delete." notice,
not the invalid-selection notice the claim requires. -/
theorem delete_empty_not_invalid_notice :
    (delete_movie [] ["0"]).1 = [] ∧
    (delete_movie [] ["0"]).2.2 = ["No movies to delete."] ∧
    "Invalid selection." ∉ (delete_movie ([] : List MovieInfo) ["0"]).2.2 := by
  exact ⟨rfl, rfl, by decide⟩

/-- C3 (amended): for every NON-EMPTY catalog, a delete selection that is 0,
negative, non-numeric, or greater than the length leaves the catalog
unchanged and the interaction ends with the invalid-selection notice; a
mutation happens only when the selection parses to an index in `[1, length]`.
(On the empty catalog the code instead prints "No movies to delete.".) -/
theorem delete_invalid_selection (movies : List MovieInfo) (stdin : List String)
    (hne : movies ≠ []) :
    ((∀ n, parseUsize (rustTrim (stdin.headD "")) = some n →
        n = 0 ∨ movies.length < n) →
      (delete_movie movies stdin).1 = movies ∧
      (delete_movie movies stdin).2.2.getLast? = some "Invalid selection.") ∧
    ((delete_movie movies stdin).1 ≠ movies →
      ∃ n, parseUsize (rustTrim (stdin.headD "")) = some n ∧
        1 ≤ n ∧ n ≤ movies.length) := by
  have hemp : movies.isEmpty = false := by
    cases movies
    · exact absurd rfl hne
    · rfl
  unfold delete_movie
  rw [hemp]
  simp only [Bool.false_eq_true, if_false]
  cases hp : parseUsize (rustTrim (stdin.headD "")) with
  | none =>
    refine ⟨fun _ => ⟨rfl, ?_⟩, fun habs => absurd rfl habs⟩
    exact List.getLast?_concat _
  | some n =>
    simp only []
    by_cases hr : 0 < n ∧ n ≤ movies.length
    · rw [if_pos hr]
      refine ⟨fun hbad => ?_, fun _ => ⟨n, rfl, hr.1, hr.2⟩⟩
      rcases hbad n rfl with h0 | hgt
      · omega
      · omega
    · rw [if_neg hr]
      refine ⟨fun _ => ⟨rfl, List.getLast?_concat _⟩, fun habs => absurd rfl habs⟩

/-- C3 witness: selection "0" on a one-record catalog is rejected with the
invalid-selection notice and no mutation. -/
theorem delete_invalid_selection_witness :
    (delete_movie [sampleA] ["0"]).1 = [sampleA] ∧
    (delete_movie [sampleA] ["0"]).2.2.getLast? = some "Invalid selection." :=
  (delete_invalid_selection [sampleA] ["0"] (by decide)).1
    (by
      intro n hn
      have h0 : parseUsize (rustTrim ((["0"] : List String).headD "")) = some 0 := by decide
      rw [h0] at hn
      injection hn with h
      exact Or.inl h.symm)

/-- C10: on the empty catalog, `delete_movie` prints only the dedicated
"No movies to delete." notice, consumes no stdin line, performs no mutation,
and neither the index prompt nor the invalid-selection notice appears. -/
theorem delete_empty_dedicated_path (stdin : List String) :
    delete_movie [] stdin = ([], stdin, ["No movies to delete."]) ∧
    "Enter the number of the movie to delete: " ∉ (delete_movie ([] : List MovieInfo) stdin).2.2 ∧
    "Invalid selection." ∉ (delete_movie ([] : List MovieInfo) stdin).2.2 := by
  refine ⟨rfl, ?_, ?_⟩ <;>
  · show _ ∉ (["No movies to delete."] : List String)
    decide

/-- C4: `load_movies` is total; a missing file yields an empty catalog and no
message, an unreadable file yields an empty catalog plus a warning, and a
file whose content does not decode yields an empty catalog plus a warning. -/
theorem load_total (filename : String) (fs : FileSystem) :
    (fs filename = none → load_movies filename fs = ([], [])) ∧
    (fs filename = some .unreadable →
      load_movies filename fs = ([], ["Warning: Could not read file " ++ filename])) ∧
    (∀ doc, fs filename = some (.content doc) → moviesFromJson doc = none →
      load_movies filename fs =
        ([], ["Warning: Failed to parse JSON data from " ++ filename])) := by
  refine ⟨fun h => ?_, fun h => ?_, fun doc h hbad => ?_⟩
  · unfold load_movies; rw [h]
  · unfold load_movies; rw [h]
  · unfold load_movies; simp only [h, hbad]

/-- C4 witness: all three cases at a concrete path. -/
theorem load_total_witness :
    load_movies "f" (fun _ => none) = ([], []) ∧
    load_movies "f" (fun _ => some .unreadable) =
      ([], ["Warning: Could not read file " ++ "f"]) ∧
    load_movies "f" (fun _ => some (.content (.str "bad"))) =
      ([], ["Warning: Failed to parse JSON data from " ++ "f"]) :=
  ⟨(load_total "f" (fun _ => none)).1 rfl,
   (load_total "f" (fun _ => some .unreadable)).2.1 rfl,
   (load_total "f" (fun _ => some (.content (.str "bad")))).2.2 (.str "bad") rfl rfl⟩

theorem flatten_blocks_drop_take (l : List MovieInfo) (k : Nat) (h : k < l.length) :
    (((l.map recordBlock).flatten).drop (5 * k)).take 5 = recordBlock (l.get ⟨k, h⟩) := by
  induction l generalizing k with
  | nil => exact absurd h (by simp)
  | cons m t ih =>
    have hb : (recordBlock m).length = 5 := by simp [recordBlock, display_movie]
    cases k with
    | zero =>
      simp only [List.map_cons, List.flatten_cons, Nat.mul_zero, List.drop_zero]
      rw [← hb, List.take_left]
      rfl
    | succ k =>
      simp only [List.map_cons, List.flatten_cons]
      have h5 : 5 * (k + 1) = (recordBlock m).length + 5 * k := by rw [hb]; ring
      rw [h5, ← List.drop_drop, List.drop_left]
      exact ih k (by simpa using h)

/-- C6 counterexample: with two records whose fields contain no digit other
than 0, the full rendering contains neither the character 1 nor the
character 2, so neither of the two records is annotated with its 1-based
display index. -/
theorem display_shows_no_index_digits :
    ([(⟨"t", "A", 0, 0⟩ : MovieInfo), ⟨"u", "B", 0, 0⟩] : List MovieInfo).length = 2 ∧
    (display_all_movies [⟨"t", "A", 0, 0⟩, ⟨"u", "B", 0, 0⟩]).all
      (fun l => !(l.data.contains '1') && !(l.data.contains '2')) = true := by
  exact ⟨rfl, by decide⟩

/-- C6 (amended): `display_all_movies` renders every record in sequence
order — the block of the record at 0-based position k occupies the five
lines starting right after the header, at offset 1 + 5k — but each block
carries NO index annotation; for the empty catalog it emits the single
no-records notice. -/
theorem display_all_movies_renders (movies : List MovieInfo) :
    (movies = [] → display_all_movies movies = ["No movies in database."]) ∧
    (∀ k (h : k < movies.length),
      ((display_all_movies movies).drop (1 + 5 * k)).take 5 =
        recordBlock (movies.get ⟨k, h⟩)) := by
  constructor
  · intro h; subst h; rfl
  · intro k h
    have hne : movies.isEmpty = false := by
      cases movies
      · simp at h
      · rfl
    unfold display_all_movies
    rw [hne]
    simp only [Bool.false_eq_true, if_false]
    rw [Nat.add_comm 1 (5 * k), List.drop_succ_cons]
    exact flatten_blocks_drop_take movies k h

/-- C6 witness: the second record of a two-record catalog occupies lines
6..10 of the rendering. -/
theorem display_all_movies_renders_witness :
    ((display_all_movies [sampleA, sampleB]).drop (1 + 5 * 1)).take 5 =
      recordBlock ([sampleA, sampleB].get ⟨1, by decide⟩) :=
  (display_all_movies_renders [sampleA, sampleB]).2 1 (by decide)

/-- C9: viewing the catalog (menu choice 2) mutates neither the catalog nor
the file system nor the session status, and two successive viewings print
identical output. -/
theorem list_idempotent (now now2 : String) (movies : List MovieInfo)
    (rest : List String) (fs : FileSystem) :
    (run_step now ⟨movies, "2" :: "2" :: rest, fs, .running⟩).1.movies = movies ∧
    (run_step now ⟨movies, "2" :: "2" :: rest, fs, .running⟩).1.fs = fs ∧
    (run_step now ⟨movies, "2" :: "2" :: rest, fs, .running⟩).1.status = .running ∧
    (run_step now2 (run_step now ⟨movies, "2" :: "2" :: rest, fs, .running⟩).1).2 =
      (run_step now ⟨movies, "2" :: "2" :: rest, fs, .running⟩).2 ∧
    (run_step now2 (run_step now ⟨movies, "2" :: "2" :: rest, fs, .running⟩).1).1.movies =
      movies := by
  have h2 : rustTrim "2" = "2" := by decide
  refine ⟨?_, ?_, ?_, ?_, ?_⟩ <;> simp [run_step, h2]

/-- C5: in the running state, menu choice 1 appends exactly one record at the
end of the catalog (the existing records stay in place), the record carries
the current timestamp, and an unparsable year or price line is coerced to
0 / 0.0 instead of being rejected. -/
theorem add_appends_record (now : String) (s : DBState)
    (hrun : s.status = .running)
    (hchoice : rustTrim (s.stdin.headD "") = "1") :
    (run_step now s).1.movies = s.movies ++ [(input_movie now s.stdin.tail).1] ∧
    (input_movie now s.stdin.tail).1.timestamp = now ∧
    (parseI32 (rustTrim (s.stdin.tail.tail.headD "")) = none →
      (input_movie now s.stdin.tail).1.year = 0) ∧
    (parseF64 (rustTrim (s.stdin.tail.tail.tail.headD "")) = none →
      (input_movie now s.stdin.tail).1.price = 0) := by
  obtain ⟨movies, stdin, fs, status⟩ := s
  cases hrun
  simp only [] at hchoice
  refine ⟨?_, rfl, fun h => ?_, fun h => ?_⟩
  · show (run_step now ⟨movies, stdin, fs, .running⟩).1.movies = _
    simp only [run_step]
    rw [if_pos hchoice]
  · simp only [] at h
    show (parseI32 (rustTrim (stdin.tail.tail.headD ""))).getD 0 = 0
    rw [h]; rfl
  · simp only [] at h
    show (parseF64 (rustTrim (stdin.tail.tail.tail.headD ""))).getD 0 = 0
    rw [h]; rfl

/-- C5 witness: adding from `addState` appends one record with year 0 and
price 0. -/
theorem add_appends_record_witness :
    (run_step "2024-03-01 10:00:00" addState).1.movies =
      addState.movies ++ [(input_movie "2024-03-01 10:00:00" addState.stdin.tail).1] ∧
    (input_movie "2024-03-01 10:00:00" addState.stdin.tail).1.timestamp =
      "2024-03-01 10:00:00" ∧
    (input_movie "2024-03-01 10:00:00" addState.stdin.tail).1.year = 0 ∧
    (input_movie "2024-03-01 10:00:00" addState.stdin.tail).1.price = 0 :=
  let h := add_appends_record "2024-03-01 10:00:00" addState rfl (by decide)
  ⟨h.1, h.2.1, h.2.2.1 (by decide), h.2.2.2 (by decide)⟩

/-- C7: in the running state, any trimmed menu input other than "1"–"4"
leaves the catalog, the file system and the session state unchanged and
prints the menu followed by the invalid-choice notice; the session moves to
`terminated` exactly when the choice is "4". -/
theorem menu_unrecognized (now : String) (s : DBState) (hrun : s.status = .running) :
    (rustTrim (s.stdin.headD "") ∉ (["1", "2", "3", "4"] : List String) →
      (run_step now s).1.movies = s.movies ∧
      (run_step now s).1.fs = s.fs ∧
      (run_step now s).1.status = .running ∧
      (run_step now s).2 = menuLines ++ ["Invalid choice. Please try again."]) ∧
    ((run_step now s).1.status = .terminated ↔ rustTrim (s.stdin.headD "") = "4") := by
  obtain ⟨movies, stdin, fs, status⟩ := s
  cases hrun
  simp only [run_step]
  constructor
  · intro hmem
    simp only [List.mem_cons, List.not_mem_nil, or_false, not_or] at hmem
    obtain ⟨h1, h2, h3, h4⟩ := hmem
    refine ⟨?_, ?_, ?_, ?_⟩ <;>
      rw [if_neg h1, if_neg h2, if_neg h3, if_neg h4]
  · by_cases h1 : rustTrim (stdin.headD "") = "1"
    · rw [if_pos h1, h1]; simp
    · by_cases h2 : rustTrim (stdin.headD "") = "2"
      · rw [if_neg h1, if_pos h2, h2]; simp
      · by_cases h3 : rustTrim (stdin.headD "") = "3"
        · rw [if_neg h1, if_neg h2, if_pos h3, h3]; simp
        · by_cases h4 : rustTrim (stdin.headD "") = "4"
          · rw [if_neg h1, if_neg h2, if_neg h3, if_pos h4, h4]; simp
          · rw [if_neg h1, if_neg h2, if_neg h3, if_neg h4]
            exact ⟨fun habs => absurd habs (by simp), fun hc => absurd hc h4⟩

/-- C7 witness: choice "9" leaves everything unchanged and does not
terminate. -/
theorem menu_unrecognized_witness :
    ((run_step "t" badChoiceState).1.movies = badChoiceState.movies ∧
     (run_step "t" badChoiceState).1.fs = badChoiceState.fs ∧
     (run_step "t" badChoiceState).1.status = .running ∧
     (run_step "t" badChoiceState).2 = menuLines ++ ["Invalid choice. Please try again."]) ∧
    ((run_step "t" badChoiceState).1.status = .terminated ↔
      rustTrim (badChoiceState.stdin.headD "") = "4") :=
  ⟨(menu_unrecognized "t" badChoiceState rfl).1 (by decide),
   (menu_unrecognized "t" badChoiceState rfl).2⟩

theorem run_loop_ok (now : String) (fuel : Nat) :
    ∀ s res, run_loop now fuel s = some res →
      res.1 = Except.ok 0 ∧ res.2.1.status = .terminated := by
  induction fuel with
  | zero => intro s res h; exact absurd h (by simp [run_loop])
  | succ fuel ih =>
    intro s res h
    unfold run_loop at h
    cases hst : s.status with
    | terminated =>
      rw [hst] at h
      cases h
      exact ⟨rfl, hst⟩
    | running =>
      rw [hst] at h
      simp only [] at h
      cases hr : run_loop now fuel (run_step now s).1 with
      | none => rw [hr] at h; exact absurd h (by simp)
      | some q =>
        obtain ⟨r, sf, out⟩ := q
        rw [hr] at h
        simp only [] at h
        cases h
        exact ⟨(ih _ _ hr).1, (ih _ _ hr).2⟩

/-- C8: the exit code computed by `main` is 0 exactly when the run returned
`Ok(0)`; every other outcome exits non-zero with a diagnostic on stderr; and
whenever the menu loop of `run_movie_db` finishes, it finishes through
save-and-exit with `Ok(0)`. -/
theorem exit_code_contract :
    (∀ oc, (main_exit oc).1 = 0 ↔ oc = RunOutcome.ok 0) ∧
    (∀ oc, oc ≠ RunOutcome.ok 0 → (main_exit oc).2 ≠ []) ∧
    (∀ now fuel stdin fs, (run_movie_db now fuel stdin fs).isSome = true →
      ((run_movie_db now fuel stdin fs).getD dummyRes).1 = Except.ok 0 ∧
      ((run_movie_db now fuel stdin fs).getD dummyRes).2.1.status = .terminated) := by
  refine ⟨?_, ?_, ?_⟩
  · intro oc
    cases oc with
    | ok code =>
      by_cases h : code = 0
      · subst h; simp [main_exit]
      · simp [main_exit, h]
    | err msg => simp [main_exit]
    | panicked => simp [main_exit]
  · intro oc hne
    cases oc with
    | ok code =>
      have h : code ≠ 0 := fun hc => hne (by rw [hc])
      simp [main_exit, h]
    | err msg => simp [main_exit]
    | panicked => simp [main_exit]
  · intro now fuel stdin fs hs
    cases hr : run_movie_db now fuel stdin fs with
    | none => rw [hr] at hs; simp at hs
    | some res =>
      simp only [run_movie_db] at hr
      cases hl : run_loop now fuel ⟨(load_movies dbFilename fs).1, stdin, fs, .running⟩ with
      | none => rw [hl] at hr; exact absurd hr (by simp)
      | some q =>
        obtain ⟨r, sf, out⟩ := q
        rw [hl] at hr
        simp only [] at hr
        obtain ⟨hq1, hq2⟩ := run_loop_ok now fuel _ (r, sf, out) hl
        cases hr
        exact ⟨hq1, hq2⟩

/-- C8 witness: a failing outcome exits non-zero with a diagnostic, and a
concrete session that chooses save-and-exit finishes with `Ok(0)` in the
terminated state. -/
theorem exit_code_contract_witness :
    ((main_exit (RunOutcome.err "boom")).1 = 0 ↔ RunOutcome.err "boom" = RunOutcome.ok 0) ∧
    (main_exit (RunOutcome.err "boom")).2 ≠ [] ∧
    ((run_movie_db "t" 2 ["4"] (fun _ => none)).getD dummyRes).1 = Except.ok 0 ∧
    ((run_movie_db "t" 2 ["4"] (fun _ => none)).getD dummyRes).2.1.status = .terminated :=
  ⟨(exit_code_contract).1 (RunOutcome.err "boom"),
   (exit_code_contract).2.1 (RunOutcome.err "boom") (by decide),
   ((exit_code_contract).2.2 "t" 2 ["4"] (fun _ => none) (by rfl)).1,
   ((exit_code_contract).2.2 "t" 2 ["4"] (fun _ => none) (by rfl)).2⟩

end MovieSaver
